import Mathlib

/-!
Verification of the `seo_card_generator` OG-image service
(`src/og_image_generator.js`, two concatenated variants: the first reads a
`language` field, the second does not).

The JavaScript source is shallowly embedded below: JS strings are Lean
`String`s, `String.prototype.split(' ')` is modelled by `splitSp` on the
character list, `String.prototype.trim()` by `jsTrim`,
`String.prototype.toUpperCase()` by `jsToUpperCase` (the inputs of interest
are ASCII), and the canvas `measureText` primitive is an abstract
`measure : String → Nat` parameter (pixel widths are natural numbers).
-/

/-- Model of JavaScript `s.toUpperCase()` for the ASCII inputs of interest:
uppercase every character. -/
def jsToUpperCase (s : String) : String := ⟨s.data.map Char.toUpper⟩

/-- Whitespace as recognised by JavaScript `trim` (restricted to the ASCII
whitespace characters). -/
def isJsWs (c : Char) : Bool :=
  c == ' ' || c == '\t' || c == '\n' || c == '\r' || c == '\x0b' || c == '\x0c'

/-- Character-list core of `jsTrim`: drop whitespace from the front, then from
the back. -/
def trimAux (l : List Char) : List Char :=
  ((l.dropWhile isJsWs).reverse.dropWhile isJsWs).reverse

/-- Model of JavaScript `s.trim()`. -/
def jsTrim (s : String) : String := ⟨trimAux s.data⟩

/-- Model of JavaScript `text.split(' ')` on the character list: split at every
single space, keeping empty fragments (so `"a  b"` gives `["a","","b"]` and
`""` gives `[""]`, exactly as in JS). -/
def splitSp : List Char → List (List Char)
  | [] => [[]]
  | c :: cs =>
    match splitSp cs with
    | [] => [[]]
    | w :: ws => if c == ' ' then [] :: w :: ws else (c :: w) :: ws

/-- The word list `text.split(' ')` of the source. -/
def jsWords (text : String) : List String :=
  (splitSp text.data).map (fun w => ⟨w⟩)

/-- Join a list of lines with single spaces (the "rejoined with single spaces"
reading used by the specification; also JS `Array.prototype.join(' ')`). -/
def joinSp : List String → String
  | [] => ""
  | [line] => line
  | line :: rest => line ++ " " ++ joinSp rest

/-- The specification's "s with whitespace normalized": split on spaces, drop
empty fragments, rejoin with single spaces. -/
def normalizeWs (s : String) : String :=
  joinSp ((jsWords s).filter (fun w => w != ""))

/-- Loop body of `wrapTextAndReturnLines` (first variant, lines 230-250):
`currentLine` is the accumulator, and the list argument holds the words at
index `i ≥ 1` (the `i > 0` guard of the source means the break branch is never
taken for the first word, which the wrapper below feeds in as the initial
accumulator). -/
def wrapLoopA (measure : String → Nat) (maxWidth : Nat) :
    List String → String → List String
  | [], currentLine => [currentLine]
  | w :: ws, currentLine =>
    let testLine := currentLine ++ (if currentLine = "" then "" else " ") ++ w
    if measure testLine > maxWidth then
      currentLine :: wrapLoopA measure maxWidth ws w
    else
      wrapLoopA measure maxWidth ws testLine

/-- `wrapTextAndReturnLines(ctx, text, maxWidth)` of the first variant.  The
`[]` branch is unreachable (`split(' ')` always returns at least one element,
see `splitSp_ne_nil`). -/
def wrapTextAndReturnLines (measure : String → Nat) (text : String) (maxWidth : Nat) :
    List String :=
  match jsWords text with
  | [] => [""]
  | w :: ws => wrapLoopA measure maxWidth ws w

/-- Loop body of `wrapText` in the second variant (lines 487-509): the
accumulator `line` always carries a trailing space, pushed lines are
`line.trim()`, and the `n > 0` guard again exempts the first word, which the
wrapper feeds in as initial accumulator `words[0] + ' '`. -/
def wrapLoopB (measure : String → Nat) (maxWidth : Nat) :
    List String → String → List String
  | [], line => [jsTrim line]
  | w :: ws, line =>
    let testLine := line ++ w ++ " "
    if measure testLine > maxWidth then
      jsTrim line :: wrapLoopB measure maxWidth ws (w ++ " ")
    else
      wrapLoopB measure maxWidth ws testLine

/-- The line accumulation inside `wrapText` of the second variant (the lines it
draws). -/
def wrapTextLinesB (measure : String → Nat) (text : String) (maxWidth : Nat) :
    List String :=
  match jsWords text with
  | [] => [""]
  | w :: ws => wrapLoopB measure maxWidth ws (w ++ " ")

/-! Layout constants of `generateImage` (both variants share lines 110-137 /
430-457; the banner constants differ between the variants). -/

/-- Canvas width (line 110). -/
def canvasWidth : Nat := 1200

/-- Icon x-position: `isRTL ? 40 : width - 220` (line 124). -/
def iconXFor (isRTL : Bool) : Nat := if isRTL then 40 else canvasWidth - 220

/-- Icon is drawn 180 px wide (line 125). -/
def iconWidth : Nat := 180

/-- Headline anchor x: `isRTL ? width - 80 : 80` (line 135). -/
def titleXFor (isRTL : Bool) : Nat := if isRTL then canvasWidth - 80 else 80

/-- Canvas text alignment modes used by the source. -/
inductive TextAlign where
  | left
  | right
deriving DecidableEq

/-- `ctx.textAlign = isRTL ? 'right' : 'left'` (lines 136, 202). -/
def textAlignFor (isRTL : Bool) : TextAlign := if isRTL then .right else .left

/-- Banner text anchor x: `isRTL ? width - 40 : 40` (line 218). -/
def titleBarXFor (isRTL : Bool) : Nat := if isRTL then canvasWidth - 40 else 40

/-- Banner line height (line 205 / 473):
`fontFamily === 'Noto Nastaliq Urdu' ? 70 : isRTL ? 50 : 35`. -/
def lineHeightFor (fontFamily : String) (isRTL : Bool) : Nat :=
  if fontFamily = "Noto Nastaliq Urdu" then 70 else if isRTL then 50 else 35

/-- Banner bar height of the first variant (line 211):
`Math.max(wrappedText.length * lineHeight + 40, 140)`. -/
def titleBarHeightA (numLines lineHeight : Nat) : Nat :=
  Nat.max (numLines * lineHeight + 40) 140

/-- Banner bar height of the second variant (line 460):
`fontFamily === 'Noto Nastaliq Urdu' ? 180 : 140`. -/
def titleBarHeightB (fontFamily : String) : Nat :=
  if fontFamily = "Noto Nastaliq Urdu" then 180 else 140

/-- The banner lines the second variant draws (line 474-481): it wraps
`titleBar.toUpperCase()` at the fixed width 400. -/
def bannerLinesB (measure : String → Nat) (titleBar : String) : List String :=
  wrapTextLinesB measure (jsToUpperCase titleBar) 400

/-! Request handling (`app.post('/generate-og')`, lines 260-317 of the first
variant and 511-553 of the second).  JSON body fields destructure to a string
or to `undefined`; we model each field as `Option String`.  JS truthiness of a
string-or-undefined value is `truthy`. -/

/-- JS truthiness of a destructured string field (`!field` in the source is
`!truthy field` here): `undefined` and the empty string are falsy. -/
def truthy : Option String → Bool
  | none => false
  | some s => s != ""

/-- One character of the class `[0-9A-F]` with the `i` flag. -/
def isHexDigit (c : Char) : Bool :=
  c.isDigit || ('A' ≤ c && c ≤ 'F') || ('a' ≤ c && c ≤ 'f')

/-- The bgColor validation regex `/^#[0-9A-F]{6}$/i` (line 286 / 523). -/
def isHexColor (s : String) : Bool :=
  match s.data with
  | '#' :: rest => rest.length == 6 && rest.all isHexDigit
  | _ => false

/-- Outcome of the endpoint before any rendering work: either an immediate
400 response with its error message, or the call to `generateImage` with the
validated arguments. -/
inductive Outcome where
  | validationError (msg : String)
  | render (titleBar titleText bgColor iconUrl fontFamily : String)
      (textDir : Option String) (language : Option String)
deriving DecidableEq

/-- Request body of the first (language) variant. -/
structure ReqA where
  titleBar : Option String
  titleText : Option String
  bgColor : Option String
  iconUrl : Option String
  fontFamily : Option String
  textDir : Option String
  language : Option String
deriving DecidableEq

/-- Request body of the second variant (no `language` field is read). -/
structure ReqB where
  titleBar : Option String
  titleText : Option String
  bgColor : Option String
  iconUrl : Option String
  fontFamily : Option String
  textDir : Option String
deriving DecidableEq

/-- The validation prefix of the first variant's handler (lines 273-304):
missing-parameter check (note `!language` is part of it), bgColor format
check, textDir check, then the call to `generateImage`. -/
def handleA (r : ReqA) : Outcome :=
  if !(truthy r.titleBar && truthy r.titleText && truthy r.bgColor &&
      truthy r.iconUrl && truthy r.fontFamily && truthy r.language) then
    .validationError "Missing required parameters"
  else if !isHexColor (r.bgColor.getD "") then
    .validationError "Invalid background color format"
  else if truthy r.textDir &&
      !((["LTR", "RTL"] : List String).contains (r.textDir.getD "")) then
    .validationError "Invalid text direction"
  else
    .render (r.titleBar.getD "") (r.titleText.getD "") (r.bgColor.getD "")
      (r.iconUrl.getD "") (r.fontFamily.getD "") r.textDir r.language

/-- The validation prefix of the second variant's handler (lines 517-540):
identical but without a `language` requirement. -/
def handleB (r : ReqB) : Outcome :=
  if !(truthy r.titleBar && truthy r.titleText && truthy r.bgColor &&
      truthy r.iconUrl && truthy r.fontFamily) then
    .validationError "Missing required parameters"
  else if !isHexColor (r.bgColor.getD "") then
    .validationError "Invalid background color format"
  else if truthy r.textDir &&
      !((["LTR", "RTL"] : List String).contains (r.textDir.getD "")) then
    .validationError "Invalid text direction"
  else
    .render (r.titleBar.getD "") (r.titleText.getD "") (r.bgColor.getD "")
      (r.iconUrl.getD "") (r.fontFamily.getD "") r.textDir none

/-- Status code used for validation failures (`res.status(400)`). -/
def validationStatus : Nat := 400

/-- Status code used for rendering failures (`res.status(500)` in the catch
block). -/
def renderFailureStatus : Nat := 500

/-! The per-language banner constants of the first variant. -/

/-- The `switch (language)` choosing `titleBarWidth` (lines 141-160). -/
def titleBarWidthFor (language : String) : Nat :=
  if language = "Urdu" then 310
  else if language = "Farsi" ∨ language = "French" ∨ language = "Somali" ∨
      language = "Turkish" ∨ language = "English" ∨ language = "Russian" then 400
  else if language = "Arabic" ∨ language = "Sorani" ∨ language = "Pashto" then 300
  else 300

/-- The `switch (language)` choosing the uppercasing `locale` (lines 162-196). -/
def localeFor (language : String) : String :=
  if language = "Turkish" then "tr-TR"
  else if language = "Urdu" then "ur-PK"
  else if language = "Farsi" then "fa-IR"
  else if language = "Somali" then "so-SO"
  else if language = "English" then "en-US"
  else if language = "Russian" then "ru-RU"
  else if language = "Arabic" then "ar-SA"
  else if language = "Sorani" then "ckb-IQ"
  else if language = "Pashto" then "ps-AF"
  else if language = "French" then "fr-FR"
  else "en-US"

/-- The language names that appear as cases of either `switch`. -/
def recognizedLanguages : List String :=
  ["Urdu", "Farsi", "French", "Somali", "Turkish", "English", "Russian",
   "Arabic", "Sorani", "Pashto"]

/-- The three banner parameters a render of the first variant uses: max banner
line width (lines 141-160), banner line height (line 205) and uppercasing
locale (lines 162-196). -/
def bannerParams (language fontFamily : String) (isRTL : Bool) :
    Nat × Nat × String :=
  (titleBarWidthFor language, lineHeightFor fontFamily isRTL, localeFor language)

/-- A request for the first variant whose only irregularity is an absent
`language` field. -/
def reqNoLang : ReqA :=
  ⟨some "Bar", some "Title", some "#AABB01", some "http://x/icon.png",
   some "Roboto", some "LTR", none⟩

/-- A concrete request with an unrecognized language. -/
def reqKlingon : ReqA :=
  ⟨some "Bar", some "Title", some "#AABB01", some "http://x/icon.png",
   some "Roboto", none, some "Klingon"⟩

/-- Whether the request's `bgColor` is present and matches the hex pattern
(used to state C8 decidably; an absent `bgColor` does not match). -/
def bgColorHexOk (r : ReqA) : Bool :=
  match r.bgColor with
  | some s => isHexColor s
  | none => false

/-- A request whose `textDir` is present but is the empty string. -/
def reqEmptyDir : ReqA :=
  ⟨some "Bar", some "Title", some "#AABB01", some "http://x/icon.png",
   some "Roboto", some "", some "English"⟩

/-- A request with a non-hex `bgColor`. -/
def reqBlue : ReqA :=
  ⟨some "Bar", some "Title", some "blue", some "http://x/icon.png",
   some "Roboto", some "LTR", some "English"⟩

/-- Map `some ""` to `none`, leaving every other field value unchanged. -/
def normOpt (o : Option String) : Option String :=
  if o = some "" then none else o

/-- Replace each of the five required fields of a first-variant request that
is present-but-empty by an absent field. -/
def normA (r : ReqA) : ReqA :=
  { r with titleBar := normOpt r.titleBar, titleText := normOpt r.titleText,
           bgColor := normOpt r.bgColor, iconUrl := normOpt r.iconUrl,
           fontFamily := normOpt r.fontFamily }

/-- Replace each of the five required fields of a second-variant request that
is present-but-empty by an absent field. -/
def normB (r : ReqB) : ReqB :=
  { r with titleBar := normOpt r.titleBar, titleText := normOpt r.titleText,
           bgColor := normOpt r.bgColor, iconUrl := normOpt r.iconUrl,
           fontFamily := normOpt r.fontFamily }

/-- A first-variant request whose `titleText` is present but empty. -/
def reqEmptyTitleText : ReqA :=
  ⟨some "Bar", some "", some "#AABB01", some "http://x/icon.png",
   some "Roboto", some "LTR", some "English"⟩

/-- A second-variant request whose `fontFamily` is present but empty. -/
def reqEmptyFont : ReqB :=
  ⟨some "Bar", some "Title", some "#AABB01", some "http://x/icon.png",
   some "", some "LTR"⟩

/-! The font provider (`loadGoogleFont`, lines 27-71).  The network is an
oracle `net : String → Option String` (`none` models a rejected fetch), and
the regex extraction of `src: url(...) format('opentype'|'truetype')`
declarations from the stylesheet is an oracle
`parse : String → Option (List String)` returning the captured URLs (`none`
models `css.match(...)` returning `null`); the claims hold for every such
oracle.  Binary payloads and `registerFont` side effects do not influence the
cache, so the state tracks the cache plus fetch counters (one stylesheet
fetch on line 36, one binary fetch per URL on line 48). -/

structure FontState where
  cache : List (String × List String)
  styleFetches : Nat
  binFetches : Nat

/-- The stylesheet URL built on line 35. -/
def apiUrl (font : String) : String :=
  "https://fonts.googleapis.com/css2?family=" ++ font ++ ":wght@400;700&display=swap"

/-- The temp file path `path.join(os.tmpdir(), font + '-' + index + '.ttf')`
of line 52 (with `/tmp` for `os.tmpdir()`). -/
def tempFileName (font : String) (i : Nat) : String :=
  "/tmp/" ++ font ++ "-" ++ toString i ++ ".ttf"

/-- The per-URL fetch loop (lines 46-64): fetch each declared URL, write the
payload to a temp file and return the file names.  `Promise.all` rejects if
any fetch rejects; sequentialising it preserves the cache-relevant
behaviour (the cache is only written after all fetches succeed). -/
def fetchAll (net : String → Option String) (font : String) :
    List String → Nat → FontState → (Except String (List String)) × FontState
  | [], _, st => (.ok [], st)
  | url :: rest, i, st =>
    let st1 : FontState := { st with binFetches := st.binFetches + 1 }
    match net url with
    | none => (.error ("Failed to fetch font file: " ++ url), st1)
    | some _body =>
      match fetchAll net font rest (i + 1) st1 with
      | (.error e, st2) => (.error e, st2)
      | (.ok files, st2) => (.ok (tempFileName font i :: files), st2)

/-- `loadGoogleFont(font)` (lines 27-71): serve from the global cache when
possible; otherwise fetch the stylesheet, extract the font URLs (throwing
`Failed to load font` when the regex matches nothing), fetch every URL, and
only then store the file list in the cache. -/
def loadGoogleFont (net : String → Option String)
    (parse : String → Option (List String)) (font : String) (st : FontState) :
    (Except String (List String)) × FontState :=
  match st.cache.lookup font with
  | some files => (.ok files, st)
  | none =>
    let st1 : FontState := { st with styleFetches := st.styleFetches + 1 }
    match net (apiUrl font) with
    | none => (.error "Failed to fetch stylesheet", st1)
    | some css =>
      match parse css with
      | none => (.error ("Failed to load font: " ++ font), st1)
      | some urls =>
        match fetchAll net font urls 0 st1 with
        | (.error e, st2) => (.error e, st2)
        | (.ok files, st2) =>
          (.ok files, { st2 with cache := (font, files) :: st2.cache })

/-- Constant-success network oracle for the witnesses. -/
def netOk : String → Option String := fun _ => some "body"

/-- Stylesheet parser oracle returning two font URLs. -/
def parseTwo : String → Option (List String) := fun _ => some ["u1", "u2"]

/-- The empty initial font state. -/
def st0 : FontState := ⟨[], 0, 0⟩

/-- The files produced by a successful resolution of `Roboto` under `netOk`. -/
def files0 : List String := [tempFileName "Roboto" 0, tempFileName "Roboto" 1]

/-- State after the successful first resolution of `Roboto`. -/
def st10 : FontState := ⟨[("Roboto", files0)], 1, 2⟩

/-- Constant-failure network oracle. -/
def netFail : String → Option String := fun _ => none

/-- State after the failed resolution attempt under `netFail`. -/
def stFail : FontState := ⟨[], 1, 0⟩

/-! Helper lemmas for the text wrapper (claim C1): basic facts about
`joinSp`, `jsTrim` and whitespace-free words. -/

/-- A word of a whitespace-normalized string: non-empty and free of
whitespace characters. -/
def cleanWord (w : String) : Prop :=
  w ≠ "" ∧ ∀ c ∈ w.data, isJsWs c = false

/-! Helper lemmas. -/

theorem splitSp_ne_nil (l : List Char) : splitSp l ≠ [] := by
  cases l with
  | nil => simp [splitSp]
  | cons c cs =>
    simp only [splitSp]
    rcases h : splitSp cs with _ | ⟨w, ws⟩
    · simp
    · dsimp only
      split <;> simp

theorem jsWords_ne_nil (text : String) : jsWords text ≠ [] := by
  simp [jsWords, splitSp_ne_nil]

theorem wrapLoopA_ne_nil (measure : String → Nat) (maxWidth : Nat) :
    ∀ (ws : List String) (cur : String), wrapLoopA measure maxWidth ws cur ≠ []
  | [], cur => by simp [wrapLoopA]
  | w :: ws, cur => by
    simp only [wrapLoopA]
    split
    · split
      · simp
      · exact wrapLoopA_ne_nil measure maxWidth ws _
    · split
      · simp
      · exact wrapLoopA_ne_nil measure maxWidth ws _

theorem wrapLoopB_ne_nil (measure : String → Nat) (maxWidth : Nat) :
    ∀ (ws : List String) (cur : String), wrapLoopB measure maxWidth ws cur ≠ []
  | [], cur => by simp [wrapLoopB]
  | w :: ws, cur => by
    simp only [wrapLoopB]
    split
    · simp
    · exact wrapLoopB_ne_nil measure maxWidth ws _

/-- Claim C9: for every measurement function, text and maximum width, both
wrappers return a non-empty line list (exactly one trailing line is pushed
after the word loop), and wrapping the empty string yields exactly one line,
the empty line. -/
theorem c9_wrapper_nonempty_empty_line (measure : String → Nat) (text : String)
    (maxWidth : Nat) :
    wrapTextAndReturnLines measure text maxWidth ≠ [] ∧
    wrapTextLinesB measure text maxWidth ≠ [] ∧
    wrapTextAndReturnLines measure "" maxWidth = [""] ∧
    wrapTextLinesB measure "" maxWidth = [""] := by
  refine ⟨?_, ?_, rfl, rfl⟩
  · unfold wrapTextAndReturnLines
    rcases h : jsWords text with _ | ⟨w, ws⟩
    · simp
    · exact wrapLoopA_ne_nil measure maxWidth ws w
  · unfold wrapTextLinesB
    rcases h : jsWords text with _ | ⟨w, ws⟩
    · simp
    · exact wrapLoopB_ne_nil measure maxWidth ws (w ++ " ")

/-- Claim C2, counterexample: in the second variant the banner bar height is a
constant chosen by font family, not `max(lineCount * lineHeight + 40, 140)`.
With font `Noto Nastaliq Urdu`, banner text `"News"` (one wrapped line, line
height 70) the formula gives 140, but the code uses 180. -/
theorem c2_counterexample :
    titleBarHeightB "Noto Nastaliq Urdu" ≠
      Nat.max ((bannerLinesB String.length "News").length *
        lineHeightFor "Noto Nastaliq Urdu" false + 40) 140 := by
  decide

/-- Claim C2, amended: in the first variant the banner bar height equals
`max(lineCount * lineHeight + 40, 140)` and is at least 140; in the second
variant it is the constant 180 for `Noto Nastaliq Urdu` and 140 for every
other font family, hence also at least 140. -/
theorem c2_amended_bar_height (numLines lineHeight : Nat) (fontFamily : String) :
    titleBarHeightA numLines lineHeight = Nat.max (numLines * lineHeight + 40) 140 ∧
    140 ≤ titleBarHeightA numLines lineHeight ∧
    140 ≤ titleBarHeightB fontFamily ∧
    (fontFamily ≠ "Noto Nastaliq Urdu" → titleBarHeightB fontFamily = 140) ∧
    titleBarHeightB "Noto Nastaliq Urdu" = 180 := by
  refine ⟨rfl, Nat.le_max_right _ _, ?_, ?_, rfl⟩
  · unfold titleBarHeightB
    split <;> omega
  · intro h
    simp [titleBarHeightB, h]

/-- Claim C2 witness: the amended statement evaluated at a concrete render
(two lines of height 35 in the first variant, font `Roboto` in the second). -/
theorem c2_amended_bar_height_witness :
    ("Roboto" ≠ "Noto Nastaliq Urdu") ∧
    (titleBarHeightA 2 35 = Nat.max (2 * 35 + 40) 140 ∧
     140 ≤ titleBarHeightA 2 35 ∧
     140 ≤ titleBarHeightB "Roboto" ∧
     (("Roboto" : String) ≠ "Noto Nastaliq Urdu" → titleBarHeightB "Roboto" = 140) ∧
     titleBarHeightB "Noto Nastaliq Urdu" = 180) :=
  ⟨by decide, c2_amended_bar_height 2 35 "Roboto"⟩

/-- Claim C7, counterexample: the claim places the icon at the leading edge for
LTR, i.e. in the left half of the canvas; the code (line 124) puts it at
`x = width - 220 = 980`, entirely in the right half. -/
theorem c7_counterexample :
    ¬ (iconXFor false + iconWidth ≤ canvasWidth / 2) := by
  decide

/-- Claim C7, amended: for two otherwise identical requests with `textDir`
LTR resp. RTL, the icon box, headline anchor and banner anchor are mirrored
about the canvas's vertical centerline by direction-dependent x-offset
constants (not a mere text-align change), and the headline is left-anchored
for LTR and right-anchored for RTL; the icon, however, sits at the trailing
edge for LTR (the right side) and at the left side for RTL. -/
theorem c7_amended_rtl_mirroring :
    iconXFor true = canvasWidth - (iconXFor false + iconWidth) ∧
    titleXFor true = canvasWidth - titleXFor false ∧
    titleBarXFor true = canvasWidth - titleBarXFor false ∧
    textAlignFor false = TextAlign.left ∧
    textAlignFor true = TextAlign.right ∧
    iconXFor false ≠ iconXFor true ∧
    canvasWidth / 2 ≤ iconXFor false := by
  decide

/-! Shared helper lemmas about the lookup tables and truthiness. -/

theorem titleBarWidthFor_default (lang : String)
    (h : lang ∉ recognizedLanguages) : titleBarWidthFor lang = 300 := by
  simp only [recognizedLanguages, List.mem_cons, List.mem_singleton] at h
  push_neg at h
  obtain ⟨n1, n2, n3, n4, n5, n6, n7, n8, n9, n10⟩ := h
  simp [titleBarWidthFor, n1, n2, n3, n4, n5, n6, n7, n8, n9, n10]

theorem localeFor_default (lang : String)
    (h : lang ∉ recognizedLanguages) : localeFor lang = "en-US" := by
  simp only [recognizedLanguages, List.mem_cons, List.mem_singleton] at h
  push_neg at h
  obtain ⟨n1, n2, n3, n4, n5, n6, n7, n8, n9, n10⟩ := h
  simp [localeFor, n1, n2, n3, n4, n5, n6, n7, n8, n9, n10]

theorem truthy_some_of_ne (s : String) (h : s ≠ "") : truthy (some s) = true := by
  simp [truthy, h]

/-- Claim C5, counterexample: `language` is not optional in the code.  A
request with every other field valid but `language` absent is rejected with
the missing-parameters validation error (the `!language` conjunct on line
280), instead of being accepted with default constants as the claim states. -/
theorem c5_counterexample :
    reqNoLang.language = none ∧
    handleA reqNoLang = Outcome.validationError "Missing required parameters" := by
  decide

/-- Claim C5, amended: `language` is required — a request without it is
rejected with the missing-parameters error; a request whose `language` is
present (non-empty) but unrecognized is accepted (given the other fields are
valid) and rendered with the default banner constants: width 300 and locale
`en-US`. -/
theorem c5_amended_language_required (r : ReqA) (lang : String)
    (h1 : truthy r.titleBar = true) (h2 : truthy r.titleText = true)
    (h3 : truthy r.bgColor = true) (h4 : truthy r.iconUrl = true)
    (h5 : truthy r.fontFamily = true)
    (hlang : r.language = some lang) (hne : lang ≠ "")
    (hhex : isHexColor (r.bgColor.getD "") = true)
    (hdir : truthy r.textDir = true →
      (["LTR", "RTL"] : List String).contains (r.textDir.getD "") = true)
    (hunrec : lang ∉ recognizedLanguages) :
    handleA { r with language := none } =
      Outcome.validationError "Missing required parameters" ∧
    handleA r = Outcome.render (r.titleBar.getD "") (r.titleText.getD "")
      (r.bgColor.getD "") (r.iconUrl.getD "") (r.fontFamily.getD "")
      r.textDir r.language ∧
    titleBarWidthFor lang = 300 ∧ localeFor lang = "en-US" := by
  refine ⟨?_, ?_, titleBarWidthFor_default lang hunrec, localeFor_default lang hunrec⟩
  · simp [handleA, truthy]
  · have hl : truthy r.language = true := by
      rw [hlang]; exact truthy_some_of_ne lang hne
    unfold handleA
    rw [h1, h2, h3, h4, h5, hl, hhex]
    cases htd : truthy r.textDir with
    | false => simp
    | true =>
      have hc := hdir htd
      rw [hc]
      simp

/-- Claim C5 witness: the amended statement at the concrete request
`reqKlingon`. -/
theorem c5_amended_language_required_witness :
    ("Klingon" : String) ∉ recognizedLanguages ∧
    (handleA { reqKlingon with language := none } =
      Outcome.validationError "Missing required parameters" ∧
    handleA reqKlingon = Outcome.render "Bar" "Title" "#AABB01"
      "http://x/icon.png" "Roboto" none (some "Klingon") ∧
    titleBarWidthFor "Klingon" = 300 ∧ localeFor "Klingon" = "en-US") :=
  ⟨by decide,
   c5_amended_language_required reqKlingon "Klingon" (by decide) (by decide)
     (by decide) (by decide) (by decide) rfl (by decide) (by decide)
     (by decide) (by decide)⟩

/-- Claim C6, counterexample: the language value alone does not select all
three banner parameters — two renders with the same language `English` but
different font families disagree on the banner line height (70 versus 35). -/
theorem c6_counterexample :
    bannerParams "English" "Noto Nastaliq Urdu" false ≠
      bannerParams "English" "Roboto" false := by
  decide

/-- Claim C6, amended: language alone selects the banner max width and the
uppercasing locale (from fixed tables with default entries 300 and `en-US`
for unrecognized keys, e.g. `tr-TR` for Turkish, `en-US` for English), but
the banner line height is selected by the font family and text direction
(70 for `Noto Nastaliq Urdu`, else 50 for RTL, else 35), independent of the
language. -/
theorem c6_amended_banner_param_tables (lang lang2 ff ff2 : String)
    (rtl rtl2 : Bool) (hunrec : lang2 ∉ recognizedLanguages) :
    (bannerParams lang ff rtl).1 = (bannerParams lang ff2 rtl2).1 ∧
    (bannerParams lang ff rtl).2.2 = (bannerParams lang ff2 rtl2).2.2 ∧
    (bannerParams lang ff rtl).2.1 = (bannerParams lang2 ff rtl).2.1 ∧
    (bannerParams lang2 ff rtl).1 = 300 ∧
    (bannerParams lang2 ff rtl).2.2 = "en-US" ∧
    (bannerParams "Turkish" ff rtl).2.2 = "tr-TR" ∧
    (bannerParams "English" ff rtl).2.2 = "en-US" ∧
    (bannerParams lang ff rtl).2.1 =
      (if ff = "Noto Nastaliq Urdu" then 70 else if rtl then 50 else 35) :=
  ⟨rfl, rfl, rfl, titleBarWidthFor_default _ hunrec,
   localeFor_default _ hunrec, rfl, rfl, rfl⟩

/-- Claim C6 witness: the amended statement at concrete languages and fonts. -/
theorem c6_amended_banner_param_tables_witness :
    ("Klingon" : String) ∉ recognizedLanguages ∧
    ((bannerParams "English" "Noto Nastaliq Urdu" false).1 =
      (bannerParams "English" "Roboto" true).1 ∧
    (bannerParams "English" "Noto Nastaliq Urdu" false).2.2 =
      (bannerParams "English" "Roboto" true).2.2 ∧
    (bannerParams "English" "Noto Nastaliq Urdu" false).2.1 =
      (bannerParams "Klingon" "Noto Nastaliq Urdu" false).2.1 ∧
    (bannerParams "Klingon" "Noto Nastaliq Urdu" false).1 = 300 ∧
    (bannerParams "Klingon" "Noto Nastaliq Urdu" false).2.2 = "en-US" ∧
    (bannerParams "Turkish" "Noto Nastaliq Urdu" false).2.2 = "tr-TR" ∧
    (bannerParams "English" "Noto Nastaliq Urdu" false).2.2 = "en-US" ∧
    (bannerParams "English" "Noto Nastaliq Urdu" false).2.1 =
      (if ("Noto Nastaliq Urdu" : String) = "Noto Nastaliq Urdu" then 70
       else if false then 50 else 35)) :=
  ⟨by decide,
   c6_amended_banner_param_tables "English" "Klingon" "Noto Nastaliq Urdu"
     "Roboto" false true (by decide)⟩

/-- Claim C8, counterexample: a request whose `textDir` is present but equal
to `""` — a value that is neither `LTR` nor `RTL` — is not rejected: the
guard `textDir && !includes(textDir)` treats the empty string as falsy, so
the request proceeds to rendering. -/
theorem c8_counterexample :
    reqEmptyDir.textDir = some "" ∧
    (("" : String) ∉ (["LTR", "RTL"] : List String)) ∧
    handleA reqEmptyDir = Outcome.render "Bar" "Title" "#AABB01"
      "http://x/icon.png" "Roboto" (some "") (some "English") := by
  decide

/-- Claim C8, amended: a request whose `bgColor` is absent or fails the
case-insensitive `#RRGGBB` pattern, or whose `textDir` is present, non-empty
and neither `LTR` nor `RTL`, is answered by a validation error before any
rendering work (the handler returns a `validationError`, never reaching
`generateImage`, so no network call is made); validation failures use status
400, distinct from the 500 used for rendering failures.  A present but empty
`textDir`, however, is treated as absent. -/
theorem c8_amended_validation_rejection (r : ReqA)
    (h : bgColorHexOk r = false ∨
      (∃ td, r.textDir = some td ∧ td ≠ "" ∧
        (["LTR", "RTL"] : List String).contains td = false)) :
    (∃ msg, handleA r = Outcome.validationError msg) ∧
    validationStatus = 400 ∧ renderFailureStatus = 500 ∧
    validationStatus ≠ renderFailureStatus := by
  refine ⟨?_, rfl, rfl, by decide⟩
  by_cases hall : (truthy r.titleBar && truthy r.titleText && truthy r.bgColor &&
      truthy r.iconUrl && truthy r.fontFamily && truthy r.language) = true
  · by_cases hhex : isHexColor (r.bgColor.getD "") = true
    · rcases h with hbg | ⟨td, htd, hne, hcont⟩
      · exfalso
        have h3 : truthy r.bgColor = true := by
          simp only [Bool.and_eq_true] at hall
          exact hall.1.1.1.2
        cases hb : r.bgColor with
        | none => rw [hb] at h3; simp [truthy] at h3
        | some s =>
          rw [hb] at hhex
          simp only [bgColorHexOk, hb] at hbg
          simp only [Option.getD_some] at hhex
          rw [hbg] at hhex
          exact Bool.false_ne_true hhex
      · refine ⟨"Invalid text direction", ?_⟩
        have htd2 : truthy r.textDir = true := by
          rw [htd]; exact truthy_some_of_ne td hne
        have hget : r.textDir.getD "" = td := by rw [htd]; rfl
        unfold handleA
        rw [hall, hhex, htd2, hget, hcont]
        simp
    · refine ⟨"Invalid background color format", ?_⟩
      unfold handleA
      rw [hall]
      have hhex2 : isHexColor (r.bgColor.getD "") = false :=
        Bool.not_eq_true _ ▸ eq_false_of_ne_true hhex
      rw [hhex2]
      simp
  · refine ⟨"Missing required parameters", ?_⟩
    have hall2 : (truthy r.titleBar && truthy r.titleText && truthy r.bgColor &&
        truthy r.iconUrl && truthy r.fontFamily && truthy r.language) = false :=
      eq_false_of_ne_true hall
    unfold handleA
    rw [hall2]
    simp

/-- Claim C8 witness: the amended statement at the concrete request
`reqBlue`, whose `bgColor` is `"blue"`. -/
theorem c8_amended_validation_rejection_witness :
    bgColorHexOk reqBlue = false ∧
    ((∃ msg, handleA reqBlue = Outcome.validationError msg) ∧
     validationStatus = 400 ∧ renderFailureStatus = 500 ∧
     validationStatus ≠ renderFailureStatus) :=
  ⟨by decide, c8_amended_validation_rejection reqBlue (Or.inl (by decide))⟩

theorem truthy_normOpt (o : Option String) : truthy (normOpt o) = truthy o := by
  rcases o with _ | s
  · simp [normOpt, truthy]
  · by_cases h : s = ""
    · subst h; simp [normOpt, truthy]
    · simp [normOpt, truthy, h]

theorem normOpt_of_truthy (o : Option String) (h : truthy o = true) :
    normOpt o = o := by
  rcases o with _ | s
  · simp [truthy] at h
  · simp only [truthy, bne_iff_ne, ne_eq] at h
    simp [normOpt, h]

theorem handleA_normA (r : ReqA) : handleA (normA r) = handleA r := by
  by_cases hall : (truthy r.titleBar && truthy r.titleText && truthy r.bgColor &&
      truthy r.iconUrl && truthy r.fontFamily) = true
  · have hfix : normA r = r := by
      simp only [Bool.and_eq_true] at hall
      obtain ⟨⟨⟨⟨t1, t2⟩, t3⟩, t4⟩, t5⟩ := hall
      cases r
      simp only [normA] at *
      rw [normOpt_of_truthy _ t1, normOpt_of_truthy _ t2, normOpt_of_truthy _ t3,
        normOpt_of_truthy _ t4, normOpt_of_truthy _ t5]
    rw [hfix]
  · have hfalse : (truthy r.titleBar && truthy r.titleText && truthy r.bgColor &&
        truthy r.iconUrl && truthy r.fontFamily) = false :=
      eq_false_of_ne_true hall
    have hnorm : (truthy (normA r).titleBar && truthy (normA r).titleText &&
        truthy (normA r).bgColor && truthy (normA r).iconUrl &&
        truthy (normA r).fontFamily) = false := by
      simpa only [normA, truthy_normOpt] using hfalse
    unfold handleA
    rw [hfalse, hnorm]
    simp

theorem handleB_normB (r : ReqB) : handleB (normB r) = handleB r := by
  by_cases hall : (truthy r.titleBar && truthy r.titleText && truthy r.bgColor &&
      truthy r.iconUrl && truthy r.fontFamily) = true
  · have hfix : normB r = r := by
      simp only [Bool.and_eq_true] at hall
      obtain ⟨⟨⟨⟨t1, t2⟩, t3⟩, t4⟩, t5⟩ := hall
      cases r
      simp only [normB] at *
      rw [normOpt_of_truthy _ t1, normOpt_of_truthy _ t2, normOpt_of_truthy _ t3,
        normOpt_of_truthy _ t4, normOpt_of_truthy _ t5]
    rw [hfix]
  · have hfalse : (truthy r.titleBar && truthy r.titleText && truthy r.bgColor &&
        truthy r.iconUrl && truthy r.fontFamily) = false :=
      eq_false_of_ne_true hall
    have hnorm : (truthy (normB r).titleBar && truthy (normB r).titleText &&
        truthy (normB r).bgColor && truthy (normB r).iconUrl &&
        truthy (normB r).fontFamily) = false := by
      simpa only [normB, truthy_normOpt] using hfalse
    unfold handleB
    rw [hfalse, hnorm]
    simp

/-- Claim C10: a required field that is present but equal to the empty string
is indistinguishable from an absent field — replacing any empty required
field by an absent one does not change the handler's outcome, and a request
with any empty required field is rejected with the same
`Missing required parameters` validation error as an absent field, before any
rendering or network work, in both variants. -/
theorem c10_empty_field_equals_absent (r : ReqA) (s : ReqB) :
    handleA (normA r) = handleA r ∧
    handleB (normB s) = handleB s ∧
    ((r.titleBar = some "" ∨ r.titleText = some "" ∨ r.bgColor = some "" ∨
      r.iconUrl = some "" ∨ r.fontFamily = some "") →
      handleA r = Outcome.validationError "Missing required parameters") ∧
    ((s.titleBar = some "" ∨ s.titleText = some "" ∨ s.bgColor = some "" ∨
      s.iconUrl = some "" ∨ s.fontFamily = some "") →
      handleB s = Outcome.validationError "Missing required parameters") := by
  refine ⟨handleA_normA r, handleB_normB s, ?_, ?_⟩
  · intro h
    rcases h with h | h | h | h | h <;> simp [handleA, truthy, h]
  · intro h
    rcases h with h | h | h | h | h <;> simp [handleB, truthy, h]

/-- Claim C10 witness: the statement applied at concrete requests with an
empty `titleText` (first variant) and an empty `fontFamily` (second
variant), discharging the emptiness hypotheses. -/
theorem c10_empty_field_equals_absent_witness :
    handleA reqEmptyTitleText =
      Outcome.validationError "Missing required parameters" ∧
    handleB reqEmptyFont =
      Outcome.validationError "Missing required parameters" :=
  ⟨(c10_empty_field_equals_absent reqEmptyTitleText reqEmptyFont).2.2.1
      (Or.inr (Or.inl rfl)),
   (c10_empty_field_equals_absent reqEmptyTitleText reqEmptyFont).2.2.2
      (Or.inr (Or.inr (Or.inr (Or.inr rfl))))⟩

theorem fetchAll_cache (net : String → Option String) (font : String) :
    ∀ (urls : List String) (i : Nat) (st : FontState),
      ((fetchAll net font urls i st).2).cache = st.cache
  | [], _, st => rfl
  | url :: rest, i, st => by
    rw [fetchAll]
    cases hn : net url with
    | none => rfl
    | some body =>
      have ih := fetchAll_cache net font rest (i + 1)
        { st with binFetches := st.binFetches + 1 }
      rcases hf : fetchAll net font rest (i + 1)
        { st with binFetches := st.binFetches + 1 } with ⟨res, st2⟩
      rw [hf] at ih
      cases res <;> simpa using ih

theorem fetchAll_styleFetches (net : String → Option String) (font : String) :
    ∀ (urls : List String) (i : Nat) (st : FontState),
      ((fetchAll net font urls i st).2).styleFetches = st.styleFetches
  | [], _, st => rfl
  | url :: rest, i, st => by
    rw [fetchAll]
    cases hn : net url with
    | none => rfl
    | some body =>
      have ih := fetchAll_styleFetches net font rest (i + 1)
        { st with binFetches := st.binFetches + 1 }
      rcases hf : fetchAll net font rest (i + 1)
        { st with binFetches := st.binFetches + 1 } with ⟨res, st2⟩
      rw [hf] at ih
      cases res <;> simpa using ih

theorem fetchAll_error_of_mem (net : String → Option String) (font : String) :
    ∀ (urls : List String) (i : Nat) (st : FontState) (u : String),
      u ∈ urls → net u = none →
      ∃ e st2, fetchAll net font urls i st = (Except.error e, st2)
  | [], _, _, u, hu, _ => absurd hu (List.not_mem_nil u)
  | url :: rest, i, st, u, hu, hn => by
    rw [fetchAll]
    cases hcase : net url with
    | none => exact ⟨_, _, rfl⟩
    | some body =>
      have hmem : u ∈ rest := by
        rcases List.mem_cons.mp hu with rfl | hm
        · rw [hcase] at hn; cases hn
        · exact hm
      obtain ⟨e, st2, hf⟩ := fetchAll_error_of_mem net font rest (i + 1)
        { st with binFetches := st.binFetches + 1 } u hmem hn
      rw [hf]
      exact ⟨e, st2, rfl⟩

theorem loadGoogleFont_ok_lookup (net : String → Option String)
    (parse : String → Option (List String)) (font : String) (st : FontState)
    (files : List String) (st1 : FontState)
    (h : loadGoogleFont net parse font st = (Except.ok files, st1)) :
    st1.cache.lookup font = some files := by
  cases hl : st.cache.lookup font with
  | some v =>
    simp only [loadGoogleFont, hl, Prod.mk.injEq, Except.ok.injEq] at h
    obtain ⟨rfl, rfl⟩ := h
    exact hl
  | none =>
    simp only [loadGoogleFont, hl] at h
    cases hn : net (apiUrl font) with
    | none => simp [hn] at h
    | some css =>
      simp only [hn] at h
      cases hp : parse css with
      | none => simp [hp] at h
      | some urls =>
        simp only [hp] at h
        rcases hf : fetchAll net font urls 0
          { st with styleFetches := st.styleFetches + 1 } with ⟨res, st2⟩
        rw [hf] at h
        cases res with
        | error e => simp at h
        | ok fs =>
          simp only [Prod.mk.injEq, Except.ok.injEq] at h
          obtain ⟨rfl, rfl⟩ := h
          simp [List.lookup]

theorem loadGoogleFont_styleFetches (net : String → Option String)
    (parse : String → Option (List String)) (font : String) (st : FontState) :
    ((loadGoogleFont net parse font st).2).styleFetches ≤ st.styleFetches + 1 := by
  cases hl : st.cache.lookup font with
  | some v =>
    simp only [loadGoogleFont, hl]
    exact Nat.le_succ _
  | none =>
    simp only [loadGoogleFont, hl]
    cases hn : net (apiUrl font) with
    | none =>
      simp only [hn]
      exact Nat.le_refl _
    | some css =>
      simp only [hn]
      cases hp : parse css with
      | none =>
        simp only [hp]
        exact Nat.le_refl _
      | some urls =>
        simp only [hp]
        rcases hf : fetchAll net font urls 0
          { st with styleFetches := st.styleFetches + 1 } with ⟨res, st2⟩
        have hs := fetchAll_styleFetches net font urls 0
          { st with styleFetches := st.styleFetches + 1 }
        rw [hf] at hs
        cases res with
        | error e =>
          simp at hs ⊢
          omega
        | ok fs =>
          simp at hs ⊢
          omega

/-- Claim C3: if a call to `loadGoogleFont` completed successfully, the
returned value is stored in the cache under the family name, a second call
with the same family name returns exactly that stored value with the state
unchanged (so it performs no network fetch at all: both fetch counters are
untouched), and the first call issued at most one stylesheet fetch — hence
resolving the same family twice issues at most one stylesheet fetch. -/
theorem c3_second_resolve_is_cache_hit (net : String → Option String)
    (parse : String → Option (List String)) (font : String) (st : FontState)
    (files : List String) (st1 : FontState)
    (h : loadGoogleFont net parse font st = (Except.ok files, st1)) :
    st1.cache.lookup font = some files ∧
    loadGoogleFont net parse font st1 = (Except.ok files, st1) ∧
    st1.styleFetches ≤ st.styleFetches + 1 := by
  have hl := loadGoogleFont_ok_lookup net parse font st files st1 h
  refine ⟨hl, ?_, ?_⟩
  · unfold loadGoogleFont
    rw [hl]
  · have := loadGoogleFont_styleFetches net parse font st
    rw [h] at this
    exact this

/-- Claim C3 witness: a concrete successful resolution followed by a cache
hit. -/
theorem c3_second_resolve_is_cache_hit_witness :
    loadGoogleFont netOk parseTwo "Roboto" st0 = (Except.ok files0, st10) ∧
    (st10.cache.lookup "Roboto" = some files0 ∧
     loadGoogleFont netOk parseTwo "Roboto" st10 = (Except.ok files0, st10) ∧
     st10.styleFetches ≤ st0.styleFetches + 1) :=
  ⟨rfl, c3_second_resolve_is_cache_hit netOk parseTwo "Roboto" st0 files0 st10 rfl⟩

/-- Claim C4: font resolution is atomic with respect to the cache.  Whenever
`loadGoogleFont` fails — the stylesheet fetch fails, the regex finds no
font-source declarations, or fetching any individual weight's payload fails —
the cache is left exactly as it was, in particular without an entry for the
family if it had none; and each of those three failure modes does make the
whole resolution fail. -/
theorem c4_failure_leaves_cache_unchanged (net : String → Option String)
    (parse : String → Option (List String)) (font : String) (st : FontState)
    (e : String) (st2 : FontState)
    (h : loadGoogleFont net parse font st = (Except.error e, st2)) :
    st2.cache = st.cache ∧
    (st.cache.lookup font = none → st2.cache.lookup font = none) ∧
    (st.cache.lookup font = none →
      (net (apiUrl font) = none →
        ∃ e2 st3, loadGoogleFont net parse font st = (Except.error e2, st3)) ∧
      (∀ css, net (apiUrl font) = some css → parse css = none →
        ∃ e2 st3, loadGoogleFont net parse font st = (Except.error e2, st3)) ∧
      (∀ css urls, net (apiUrl font) = some css → parse css = some urls →
        (∃ u, u ∈ urls ∧ net u = none) →
        ∃ e2 st3, loadGoogleFont net parse font st = (Except.error e2, st3))) := by
  have hcache : st2.cache = st.cache := by
    cases hl : st.cache.lookup font with
    | some v => simp [loadGoogleFont, hl] at h
    | none =>
      simp only [loadGoogleFont, hl] at h
      cases hn : net (apiUrl font) with
      | none =>
        simp only [hn, Prod.mk.injEq] at h
        rw [← h.2]
      | some css =>
        simp only [hn] at h
        cases hp : parse css with
        | none =>
          simp only [hp, Prod.mk.injEq] at h
          rw [← h.2]
        | some urls =>
          simp only [hp] at h
          rcases hf : fetchAll net font urls 0
            { st with styleFetches := st.styleFetches + 1 } with ⟨res, stf⟩
          have hc := fetchAll_cache net font urls 0
            { st with styleFetches := st.styleFetches + 1 }
          rw [hf] at hc
          rw [hf] at h
          cases res with
          | error e3 =>
            simp only [Prod.mk.injEq, Except.error.injEq] at h
            rw [← h.2]
            simpa using hc
          | ok fs => simp at h
  refine ⟨hcache, fun hnone => hcache ▸ hnone, fun hnone => ⟨?_, ?_, ?_⟩⟩
  · intro hn
    refine ⟨"Failed to fetch stylesheet",
      { st with styleFetches := st.styleFetches + 1 }, ?_⟩
    simp only [loadGoogleFont, hnone, hn]
  · intro css hn hp
    refine ⟨"Failed to load font: " ++ font,
      { st with styleFetches := st.styleFetches + 1 }, ?_⟩
    simp only [loadGoogleFont, hnone, hn, hp]
  · rintro css urls hn hp ⟨u, hu, hun⟩
    obtain ⟨e2, st3, hf⟩ := fetchAll_error_of_mem net font urls 0
      { st with styleFetches := st.styleFetches + 1 } u hu hun
    refine ⟨e2, st3, ?_⟩
    simp only [loadGoogleFont, hnone, hn, hp, hf]

/-- Claim C4 witness: a concrete failing resolution (the stylesheet fetch
fails) leaves the cache untouched. -/
theorem c4_failure_leaves_cache_unchanged_witness :
    loadGoogleFont netFail parseTwo "Roboto" st0 =
      (Except.error "Failed to fetch stylesheet", stFail) ∧
    stFail.cache = st0.cache ∧
    (st0.cache.lookup "Roboto" = none → stFail.cache.lookup "Roboto" = none) :=
  ⟨rfl,
   (c4_failure_leaves_cache_unchanged netFail parseTwo "Roboto" st0
     "Failed to fetch stylesheet" stFail rfl).1,
   (c4_failure_leaves_cache_unchanged netFail parseTwo "Roboto" st0
     "Failed to fetch stylesheet" stFail rfl).2.1⟩

theorem str_data_append (s t : String) : (s ++ t).data = s.data ++ t.data := rfl

theorem str_ne_empty_of_data (s : String) (c : Char) (cs : List Char)
    (h : s.data = c :: cs) : s ≠ "" := by
  intro he
  rw [he] at h
  cases h

theorem joinSp_cons_cons (a b : String) (l : List String) :
    joinSp (a :: b :: l) = a ++ " " ++ joinSp (b :: l) := rfl

theorem append_space_ne_empty (a b : String) : a ++ " " ++ b ≠ "" := by
  intro h
  have hd : (a ++ " " ++ b).data = [] := by rw [h]
  rw [str_data_append, str_data_append] at hd
  simp at hd

theorem joinSp_glue (a b : String) (l : List String) :
    joinSp ((a ++ " " ++ b) :: l) = a ++ " " ++ joinSp (b :: l) := by
  cases l with
  | nil => rfl
  | cons x xs =>
    rw [joinSp_cons_cons, joinSp_cons_cons]
    simp [String.append_assoc]

theorem joinSp_append_ne (a b : List String) (ha : a ≠ []) (hb : b ≠ []) :
    joinSp (a ++ b) = joinSp a ++ " " ++ joinSp b := by
  induction a with
  | nil => exact absurd rfl ha
  | cons x xs ih =>
    cases xs with
    | nil =>
      cases b with
      | nil => exact absurd rfl hb
      | cons y ys => rfl
    | cons x2 xs2 =>
      have hrec := ih (by simp)
      rw [show joinSp ((x :: x2 :: xs2) ++ b) =
          x ++ " " ++ joinSp ((x2 :: xs2) ++ b) from rfl]
      rw [hrec, joinSp_cons_cons]
      simp [String.append_assoc]

theorem dropWhile_cons_of_not (c : Char) (cs : List Char)
    (h : isJsWs c = false) : (c :: cs).dropWhile isJsWs = c :: cs := by
  simp [List.dropWhile, h]

theorem trimAux_concat_space (l : List Char)
    (h1 : ∃ c cs, l = c :: cs ∧ isJsWs c = false)
    (h2 : ∃ d ds, l.reverse = d :: ds ∧ isJsWs d = false) :
    trimAux (l ++ [' ']) = l := by
  obtain ⟨c, cs, rfl, hc⟩ := h1
  obtain ⟨d, ds, hrev, hd⟩ := h2
  unfold trimAux
  rw [show (c :: cs) ++ [' '] = c :: (cs ++ [' ']) from rfl]
  rw [dropWhile_cons_of_not c _ hc]
  rw [show (c :: (cs ++ [' '])).reverse = ' ' :: (c :: cs).reverse from by simp]
  rw [show (' ' :: (c :: cs).reverse).dropWhile isJsWs =
      ((c :: cs).reverse).dropWhile isJsWs from rfl]
  rw [hrev, dropWhile_cons_of_not d _ hd, ← hrev, List.reverse_reverse]

theorem trimAux_append_space (l : List Char) :
    trimAux (l ++ [' ']) = trimAux l := by
  unfold trimAux
  rcases hdw : l.dropWhile isJsWs with _ | ⟨c, cs⟩
  · rw [List.dropWhile_append, hdw]
    simp [List.dropWhile]
  · rw [List.dropWhile_append, hdw]
    have hc : isJsWs c = false := by
      have := List.head?_dropWhile_not isJsWs l
      rw [hdw] at this
      simpa using this
    simp only [List.isEmpty_cons, if_false, Bool.false_eq_true]
    rw [show ((c :: cs) ++ [' ']).reverse = ' ' :: (c :: cs).reverse from by simp]
    rw [show (' ' :: (c :: cs).reverse).dropWhile isJsWs =
        ((c :: cs).reverse).dropWhile isJsWs from rfl]

theorem jsTrim_append_space (s : String) : jsTrim (s ++ " ") = jsTrim s := by
  unfold jsTrim
  rw [show (s ++ " ").data = s.data ++ [' '] from rfl]
  rw [trimAux_append_space]

theorem trimAux_substring (l : List Char) : trimAux l <:+: l := by
  unfold trimAux
  have h1 : l.dropWhile isJsWs <:+ l := List.dropWhile_suffix _
  have h2 : (l.dropWhile isJsWs).reverse.dropWhile isJsWs <:+
      (l.dropWhile isJsWs).reverse := List.dropWhile_suffix _
  have h3 : ((l.dropWhile isJsWs).reverse.dropWhile isJsWs).reverse <+:
      l.dropWhile isJsWs := by
    have h4 := h2
    rw [show (l.dropWhile isJsWs).reverse.dropWhile isJsWs =
        (((l.dropWhile isJsWs).reverse.dropWhile isJsWs).reverse).reverse from
        (List.reverse_reverse _).symm] at h4
    exact (List.reverse_suffix).mp h4
  exact h3.isInfix.trans h1.isInfix

theorem jsTrim_substring (s : String) : (jsTrim s).data <:+: s.data :=
  trimAux_substring s.data

theorem str_eq_empty_of_data (s : String) (h : s.data = []) : s = "" := by
  cases s
  simp only at h
  rw [h]

theorem joinSp_sandwich :
    ∀ (acc : List String), acc ≠ [] → (∀ x ∈ acc, cleanWord x) →
      (∃ c cs, (joinSp acc).data = c :: cs ∧ isJsWs c = false) ∧
      (∃ d ds, (joinSp acc).data.reverse = d :: ds ∧ isJsWs d = false)
  | [], h, _ => absurd rfl h
  | [w], _, hclean => by
    obtain ⟨hne, hws⟩ := hclean w (List.mem_cons_self ..)
    rcases hw : w.data with _ | ⟨c, cs⟩
    · exact absurd (str_eq_empty_of_data w hw) hne
    constructor
    · exact ⟨c, cs, by simpa [joinSp] using hw,
        hws c (hw ▸ List.mem_cons_self ..)⟩
    · rcases hrev : w.data.reverse with _ | ⟨d, ds⟩
      · exfalso
        have hnilrev : w.data = [] := by
          have := congrArg List.reverse hrev
          simpa using this
        rw [hnilrev] at hw
        cases hw
      · refine ⟨d, ds, by simpa [joinSp] using hrev, hws d ?_⟩
        have hmem : d ∈ w.data.reverse := hrev ▸ List.mem_cons_self ..
        simpa [List.mem_reverse] using hmem
  | w :: x :: xs, _, hclean => by
    obtain ⟨hne, hws⟩ := hclean w (List.mem_cons_self ..)
    have hcl2 : ∀ y ∈ x :: xs, cleanWord y :=
      fun y hy => hclean y (List.mem_cons_of_mem _ hy)
    obtain ⟨⟨c2, cs2, hh2, hc2⟩, ⟨d2, ds2, ht2, hd2⟩⟩ :=
      joinSp_sandwich (x :: xs) (by simp) hcl2
    rcases hw : w.data with _ | ⟨c, cs⟩
    · exact absurd (str_eq_empty_of_data w hw) hne
    constructor
    · refine ⟨c, cs ++ (' ' :: (joinSp (x :: xs)).data), ?_,
        hws c (hw ▸ List.mem_cons_self ..)⟩
      rw [joinSp_cons_cons, str_data_append, str_data_append, hw]
      simp
    · rw [joinSp_cons_cons, str_data_append, str_data_append]
      rw [List.reverse_append, ht2]
      exact ⟨d2, ds2 ++ (w.data ++ (" " : String).data).reverse, by simp, hd2⟩

theorem jsTrim_joinSp_space (acc : List String) (hacc : acc ≠ [])
    (hclean : ∀ x ∈ acc, cleanWord x) :
    jsTrim (joinSp acc ++ " ") = joinSp acc := by
  obtain ⟨hh, ht⟩ := joinSp_sandwich acc hacc hclean
  unfold jsTrim
  rw [show (joinSp acc ++ " ").data = (joinSp acc).data ++ [' '] from rfl]
  rw [trimAux_concat_space _ hh ht]

theorem wrapLoopA_join (measure : String → Nat) (maxWidth : Nat) :
    ∀ (ws : List String) (cur : String), cur ≠ "" → (∀ w ∈ ws, w ≠ "") →
      joinSp (wrapLoopA measure maxWidth ws cur) = joinSp (cur :: ws)
  | [], cur, _, _ => rfl
  | w :: ws, cur, hcur, hws => by
    have hw : w ≠ "" := hws w (List.mem_cons_self ..)
    have hws' : ∀ x ∈ ws, x ≠ "" := fun x hx => hws x (List.mem_cons_of_mem _ hx)
    simp only [wrapLoopA]
    rw [if_neg hcur]
    by_cases hcond : measure (cur ++ " " ++ w) > maxWidth
    · rw [if_pos hcond]
      rcases hrest : wrapLoopA measure maxWidth ws w with _ | ⟨r, rs⟩
      · exact absurd hrest (wrapLoopA_ne_nil measure maxWidth ws w)
      · have hjoin := wrapLoopA_join measure maxWidth ws w hw hws'
        rw [hrest] at hjoin
        rw [joinSp_cons_cons, hjoin]
        rfl
    · rw [if_neg hcond]
      rw [wrapLoopA_join measure maxWidth ws (cur ++ " " ++ w)
        (append_space_ne_empty cur w) hws']
      rw [joinSp_glue]
      rfl

theorem wrapLoopA_width (measure : String → Nat) (maxWidth : Nat)
    (Q : String → Prop) :
    ∀ (ws : List String) (cur : String),
      (measure cur ≤ maxWidth ∨ Q cur) → (∀ w ∈ ws, Q w) →
      ∀ line ∈ wrapLoopA measure maxWidth ws cur,
        measure line ≤ maxWidth ∨ Q line
  | [], cur, hcur, _ => by
    intro line hline
    simp only [wrapLoopA, List.mem_singleton] at hline
    subst hline
    exact hcur
  | w :: ws, cur, hcur, hws => by
    intro line hline
    have hw : Q w := hws w (List.mem_cons_self ..)
    have hws' : ∀ x ∈ ws, Q x := fun x hx => hws x (List.mem_cons_of_mem _ hx)
    simp only [wrapLoopA] at hline
    by_cases hcond : measure (cur ++ (if cur = "" then "" else " ") ++ w) > maxWidth
    · rw [if_pos hcond] at hline
      rcases List.mem_cons.mp hline with rfl | hline2
      · exact hcur
      · exact wrapLoopA_width measure maxWidth Q ws w (Or.inr hw) hws' line hline2
    · rw [if_neg hcond] at hline
      exact wrapLoopA_width measure maxWidth Q ws _
        (Or.inl (Nat.not_lt.mp hcond)) hws' line hline

theorem wrapLoopB_width (measure : String → Nat) (maxWidth : Nat)
    (mono : ∀ a b : String, a.data <:+: b.data → measure a ≤ measure b)
    (Q : String → Prop) :
    ∀ (ws : List String) (cur : String),
      (measure cur ≤ maxWidth ∨ ∃ w, Q w ∧ cur = w ++ " ") →
      (∀ w ∈ ws, Q w) →
      ∀ line ∈ wrapLoopB measure maxWidth ws cur,
        measure line ≤ maxWidth ∨ ∃ w, Q w ∧ line = jsTrim w
  | [], cur, hcur, _ => by
    intro line hline
    simp only [wrapLoopB, List.mem_singleton] at hline
    subst hline
    rcases hcur with h | ⟨w, hQ, rfl⟩
    · exact Or.inl (le_trans (mono _ _ (jsTrim_substring cur)) h)
    · exact Or.inr ⟨w, hQ, jsTrim_append_space w⟩
  | w :: ws, cur, hcur, hws => by
    intro line hline
    have hw : Q w := hws w (List.mem_cons_self ..)
    have hws' : ∀ x ∈ ws, Q x := fun x hx => hws x (List.mem_cons_of_mem _ hx)
    simp only [wrapLoopB] at hline
    by_cases hcond : measure (cur ++ w ++ " ") > maxWidth
    · rw [if_pos hcond] at hline
      rcases List.mem_cons.mp hline with rfl | hline2
      · rcases hcur with h | ⟨v, hQ, rfl⟩
        · exact Or.inl (le_trans (mono _ _ (jsTrim_substring cur)) h)
        · exact Or.inr ⟨v, hQ, jsTrim_append_space v⟩
      · exact wrapLoopB_width measure maxWidth mono Q ws (w ++ " ")
          (Or.inr ⟨w, hw, rfl⟩) hws' line hline2
    · rw [if_neg hcond] at hline
      exact wrapLoopB_width measure maxWidth mono Q ws _
        (Or.inl (Nat.not_lt.mp hcond)) hws' line hline

theorem wrapLoopB_join (measure : String → Nat) (maxWidth : Nat) :
    ∀ (ws acc : List String), acc ≠ [] → (∀ x ∈ acc, cleanWord x) →
      (∀ w ∈ ws, cleanWord w) →
      joinSp (wrapLoopB measure maxWidth ws (joinSp acc ++ " ")) =
        joinSp (acc ++ ws)
  | [], acc, hacc, haccc, _ => by
    simp only [wrapLoopB]
    rw [jsTrim_joinSp_space acc hacc haccc, List.append_nil]
    rfl
  | w :: ws, acc, hacc, haccc, hwsc => by
    have hw : cleanWord w := hwsc w (List.mem_cons_self ..)
    have hws' : ∀ x ∈ ws, cleanWord x :=
      fun x hx => hwsc x (List.mem_cons_of_mem _ hx)
    have haccw : ∀ x ∈ acc ++ [w], cleanWord x := by
      intro x hx
      rcases List.mem_append.mp hx with h | h
      · exact haccc x h
      · rw [List.mem_singleton] at h; subst h; exact hw
    simp only [wrapLoopB]
    have htest : joinSp acc ++ " " ++ w ++ " " = joinSp (acc ++ [w]) ++ " " := by
      rw [joinSp_append_ne acc [w] hacc (by simp)]
      rfl
    rw [htest]
    by_cases hcond : measure (joinSp (acc ++ [w]) ++ " ") > maxWidth
    · rw [if_pos hcond]
      rw [jsTrim_joinSp_space acc hacc haccc]
      rcases hrest : wrapLoopB measure maxWidth ws (w ++ " ") with _ | ⟨r, rs⟩
      · exact absurd hrest (wrapLoopB_ne_nil measure maxWidth ws (w ++ " "))
      · have hjoin := wrapLoopB_join measure maxWidth ws [w] (by simp)
          (by intro x hx; rw [List.mem_singleton] at hx; subst hx; exact hw) hws'
        rw [show joinSp [w] ++ " " = w ++ " " from rfl] at hjoin
        rw [hrest] at hjoin
        rw [joinSp_cons_cons, hjoin]
        rw [joinSp_append_ne acc (w :: ws) hacc (by simp)]
        rfl
    · rw [if_neg hcond]
      rw [wrapLoopB_join measure maxWidth ws (acc ++ [w]) (by simp) haccw hws']
      rw [List.append_assoc]
      rfl

theorem normalizeWs_of_clean (text : String)
    (hclean : ∀ w ∈ jsWords text, cleanWord w) :
    normalizeWs text = joinSp (jsWords text) := by
  unfold normalizeWs
  congr 1
  apply List.filter_eq_self.mpr
  intro w hw
  simpa [bne_iff_ne] using (hclean w hw).1

/-- Claim C1, counterexample: the wrapper does not normalize whitespace.  On
the input `"a  b"` (two spaces) with a measurement under which everything
fits, `split(' ')` produces the empty word `""` and the single returned line
is `"a  b"`, which differs from the whitespace-normalized `"a b"`. -/
theorem c1_counterexample :
    ¬ (joinSp (wrapTextAndReturnLines String.length "a  b" 100) =
      normalizeWs "a  b") := by
  decide

/-- Claim C1, amended: for every measurement function that is monotone with
respect to substrings and every ASCII string whose whitespace is already
normalized (its space-split words are non-empty and whitespace-free), the
lines of both wrappers rejoined with single spaces equal the
whitespace-normalized input, and every returned line either measures at most
`maxWidth` or consists of a single word (in the second variant, a trimmed
single word) — a single word wider than `maxWidth` is never split. -/
theorem c1_amended_wrap (measure : String → Nat) (text : String)
    (maxWidth : Nat) (_hmw : 0 < maxWidth)
    (mono : ∀ a b : String, a.data <:+: b.data → measure a ≤ measure b)
    (hclean : ∀ w ∈ jsWords text, cleanWord w) :
    joinSp (wrapTextAndReturnLines measure text maxWidth) = normalizeWs text ∧
    joinSp (wrapTextLinesB measure text maxWidth) = normalizeWs text ∧
    (∀ line ∈ wrapTextAndReturnLines measure text maxWidth,
      measure line ≤ maxWidth ∨ line ∈ jsWords text) ∧
    (∀ line ∈ wrapTextLinesB measure text maxWidth,
      measure line ≤ maxWidth ∨ ∃ w ∈ jsWords text, line = jsTrim w) := by
  have hnorm : normalizeWs text = joinSp (jsWords text) :=
    normalizeWs_of_clean text hclean
  rcases h0 : jsWords text with _ | ⟨w, ws⟩
  · exact absurd h0 (jsWords_ne_nil text)
  rw [h0] at hnorm hclean
  have hw : cleanWord w := hclean w (List.mem_cons_self ..)
  have hws : ∀ x ∈ ws, cleanWord x :=
    fun x hx => hclean x (List.mem_cons_of_mem _ hx)
  have eA : wrapTextAndReturnLines measure text maxWidth =
      wrapLoopA measure maxWidth ws w := by
    simp only [wrapTextAndReturnLines, h0]
  have eB : wrapTextLinesB measure text maxWidth =
      wrapLoopB measure maxWidth ws (w ++ " ") := by
    simp only [wrapTextLinesB, h0]
  refine ⟨?_, ?_, ?_, ?_⟩
  · rw [eA, hnorm]
    exact wrapLoopA_join measure maxWidth ws w hw.1 (fun x hx => (hws x hx).1)
  · rw [eB, hnorm]
    have hb := wrapLoopB_join measure maxWidth ws [w] (by simp)
      (by intro x hx; rw [List.mem_singleton] at hx; subst hx; exact hw) hws
    rw [show joinSp [w] ++ " " = w ++ " " from rfl] at hb
    rw [hb]
    rfl
  · rw [eA]
    intro line hline
    exact wrapLoopA_width measure maxWidth (fun s => s ∈ w :: ws) ws w
      (Or.inr (List.mem_cons_self ..))
      (fun x hx => List.mem_cons_of_mem _ hx) line hline
  · rw [eB]
    intro line hline
    rcases wrapLoopB_width measure maxWidth mono (fun s => s ∈ w :: ws)
        ws (w ++ " ")
        (Or.inr ⟨w, List.mem_cons_self .., rfl⟩)
        (fun x hx => List.mem_cons_of_mem _ hx)
        line hline with h | ⟨v, hv, he⟩
    · exact Or.inl h
    · exact Or.inr ⟨v, hv, he⟩

/-- Claim C1 witness: the amended statement at `measure = String.length`,
`text = "a b c"`, `maxWidth = 3` (which wraps to `["a b", "c"]`). -/
theorem c1_amended_wrap_witness :
    (0 < 3) ∧
    (∀ a b : String, a.data <:+: b.data → String.length a ≤ String.length b) ∧
    (∀ w ∈ jsWords "a b c", cleanWord w) ∧
    (joinSp (wrapTextAndReturnLines String.length "a b c" 3) =
      normalizeWs "a b c" ∧
    joinSp (wrapTextLinesB String.length "a b c" 3) = normalizeWs "a b c" ∧
    (∀ line ∈ wrapTextAndReturnLines String.length "a b c" 3,
      String.length line ≤ 3 ∨ line ∈ jsWords "a b c") ∧
    (∀ line ∈ wrapTextLinesB String.length "a b c" 3,
      String.length line ≤ 3 ∨ ∃ w ∈ jsWords "a b c", line = jsTrim w)) :=
  ⟨by decide, fun a b h => h.length_le,
   by unfold cleanWord; decide,
   c1_amended_wrap String.length "a b c" 3 (by decide)
     (fun a b h => h.length_le)
     (by unfold cleanWord; decide)⟩
